import Mathlib

set_option maxRecDepth 40000

/-!
Shallow embedding of the frame codec of MrCh1ppy/redis_rust_server_2
(src/lib/frame.rs), its connection read/write paths (src/lib/conn.rs) and
the command tokenizer (src/lib/parse.rs).

Byte buffers are modelled as lists of natural numbers (the u8 values),
and the io Cursor over a byte slice is modelled by passing the underlying
data together with an explicit position.  Every fallible Rust function
returns the Res type below; Rust panics (todo, unreachable, a failed
slice index or a failed Buf advance assertion) are an explicit outcome,
since several of the claims are about whether the code aborts.
-/

/-- A byte of the buffer: the numeric value of a u8 (0..255). -/
abbrev Byte := Nat

/-- Outcome of a fallible codec operation: mirrors Result with the error
enum FrameError of src/lib/frame.rs.  ok carries the produced value plus
the advanced cursor position where relevant; incomplete is
FrameError::Incomplete; otherErr is FrameError::Other (the wrapped error
message is elided, only the kind matters to the claims); panic marks a
Rust abort (todo macro, unreachable macro, an out of bounds slice index,
or the assertion inside Buf advance); fuelOut is an artifact of the
structural recursion fuel used for the recursive descent and never fires
at the fuel budget chosen below. -/
inductive Res (α : Type) where
  | ok : α → Res α
  | incomplete : Res α
  | otherErr : Res α
  | panic : Res α
  | fuelOut : Res α
deriving DecidableEq

/-- Error propagation, mirroring the question mark operator on Result. -/
def Res.bind {α β : Type} : Res α → (α → Res β) → Res β
  | .ok a, f => f a
  | .incomplete, _ => .incomplete
  | .otherErr, _ => .otherErr
  | .panic, _ => .panic
  | .fuelOut, _ => .fuelOut

/-- Buf remaining for a Cursor over a byte slice: number of bytes from
the current position to the end (zero once the position passes the end). -/
def remaining (data : List Byte) (pos : Nat) : Nat := data.length - pos

/-- peek_u8 of src/lib/frame.rs: fail Incomplete when no bytes remain,
otherwise the first byte of the chunk at the current position, without
advancing. -/
def peek_u8 (data : List Byte) (pos : Nat) : Res Byte :=
  if remaining data pos = 0 then .incomplete else .ok (data.getD pos 0)

/-- get_u8 of src/lib/frame.rs: fail Incomplete when no bytes remain,
otherwise the byte at the current position together with the advanced
position. -/
def get_u8 (data : List Byte) (pos : Nat) : Res (Byte × Nat) :=
  if remaining data pos = 0 then .incomplete else .ok (data.getD pos 0, pos + 1)

/-- Largest usize value on the 64 bit targets the crate builds for. -/
def USIZE_MAX : Nat := 2 ^ 64 - 1

/-- Bitwise complement of a usize value, as computed by the Rust
exclamation operator on an unsigned integer. -/
def usize_not (n : Nat) : Nat := USIZE_MAX - n

/-- skip of src/lib/frame.rs.  The source tests
if not src.remaining() is less than range, where the not is the Rust
bitwise complement of the usize returned by remaining, so the Incomplete
guard is the comparison of that complement against range; when the guard
does not fire, Buf advance runs, whose assertion panics if the new
position would pass the end of the buffer. -/
def skip (data : List Byte) (pos range : Nat) : Res Nat :=
  if usize_not (remaining data pos) < range then .incomplete
  else if pos + range ≤ data.length then .ok (pos + range)
  else .panic

/-- Outcome of the scanning loop inside get_line: the offset of the first
carriage return of a CRLF pair, or Incomplete when the loop ends, or a
panic when the loop reads one byte past the end of the buffer. -/
inductive LineScan where
  | found : Nat → LineScan
  | incomplete : LineScan
  | panic : LineScan
deriving DecidableEq

/-- Shift a found offset by one position; other outcomes are unchanged. -/
def LineScan.bump : LineScan → LineScan
  | .found k => .found (k + 1)
  | .incomplete => .incomplete
  | .panic => .panic

/-- The loop of get_line in src/lib/frame.rs, expressed on the suffix of
the buffer that starts at the loop index.  At index i the source tests
data at i for a carriage return and then unconditionally indexes data at
i plus one: when i is the final index that second access is out of
bounds and the program panics.  When the byte is not a carriage return,
or the following byte is not a line feed, the loop moves on; falling off
the end yields Incomplete. -/
def scan_crlf : List Byte → LineScan
  | [] => .incomplete
  | b :: rest =>
    if b = 13 then
      match rest with
      | [] => .panic
      | c :: _ => if c = 10 then .found 0 else (scan_crlf rest).bump
    else (scan_crlf rest).bump

/-- get_line of src/lib/frame.rs: scan from the current position for the
first CRLF pair, return the bytes strictly before it and set the
position just past the pair. -/
def get_line (data : List Byte) (pos : Nat) : Res (List Byte × Nat) :=
  match scan_crlf (data.drop pos) with
  | .found k => .ok ((data.drop pos).take k, pos + k + 2)
  | .incomplete => .incomplete
  | .panic => .panic

/-- ascii_to_digit of the external atoi crate: the value of an ASCII
decimal digit. -/
def ascii_to_digit (b : Byte) : Option Nat :=
  if 48 ≤ b ∧ b ≤ 57 then some (b - 48) else none

/-- One past the largest u64 value. -/
def U64_CAP : Nat := 2 ^ 64

/-- Modelled from the documented behavior of the external atoi crate
(FromRadix10Checked for u64): accumulate ASCII digits from the front
with checked multiply and add, stopping at the first non digit byte, and
report the number of bytes consumed alongside the (possibly overflowed,
hence None) accumulated value. -/
def from_radix_10_checked : List Byte → Option Nat → Option Nat × Nat
  | [], acc => (acc, 0)
  | b :: rest, acc =>
    match ascii_to_digit b with
    | none => (acc, 0)
    | some d =>
      let acc2 := acc.bind fun n =>
        if n * 10 + d < U64_CAP then some (n * 10 + d) else none
      let r := from_radix_10_checked rest acc2
      (r.1, r.2 + 1)

/-- Modelled from the documented behavior of the external atoi crate
(the atoi function at u64): the parse succeeds only when the whole slice
was consumed as digits, the slice is non empty, and no overflow
occurred. -/
def atoi64 (text : List Byte) : Option Nat :=
  let r := from_radix_10_checked text (some 0)
  match r.1 with
  | some n => if r.2 = text.length ∧ r.2 ≠ 0 then some n else none
  | none => none

/-- get_decimal of src/lib/frame.rs: read one line and parse it with the
atoi crate as a u64, mapping a failed parse to FrameError::Other. -/
def get_decimal (data : List Byte) (pos : Nat) : Res (Nat × Nat) :=
  (get_line data pos).bind fun lp =>
    match atoi64 lp.1 with
    | some n => .ok (n, lp.2)
    | none => .otherErr

/-- Whether a byte is a UTF-8 continuation byte. -/
def utf8Cont (b : Byte) : Bool := decide (128 ≤ b ∧ b ≤ 191)

/-- Strict UTF-8 validity of a byte sequence, as checked by
String::from_utf8 in the Rust standard library (rejecting overlong
forms, surrogates and values past the last code point). -/
def validUtf8 : List Byte → Bool
  | [] => true
  | b :: rest =>
    if b ≤ 127 then validUtf8 rest
    else if 194 ≤ b ∧ b ≤ 223 then
      match rest with
      | c :: r => utf8Cont c && validUtf8 r
      | _ => false
    else if b = 224 then
      match rest with
      | c :: d :: r => decide (160 ≤ c ∧ c ≤ 191) && utf8Cont d && validUtf8 r
      | _ => false
    else if (225 ≤ b ∧ b ≤ 236) ∨ b = 238 ∨ b = 239 then
      match rest with
      | c :: d :: r => utf8Cont c && utf8Cont d && validUtf8 r
      | _ => false
    else if b = 237 then
      match rest with
      | c :: d :: r => decide (128 ≤ c ∧ c ≤ 159) && utf8Cont d && validUtf8 r
      | _ => false
    else if b = 240 then
      match rest with
      | c :: d :: e :: r =>
        decide (144 ≤ c ∧ c ≤ 191) && utf8Cont d && utf8Cont e && validUtf8 r
      | _ => false
    else if 241 ≤ b ∧ b ≤ 243 then
      match rest with
      | c :: d :: e :: r => utf8Cont c && utf8Cont d && utf8Cont e && validUtf8 r
      | _ => false
    else if b = 244 then
      match rest with
      | c :: d :: e :: r =>
        decide (128 ≤ c ∧ c ≤ 143) && utf8Cont d && utf8Cont e && validUtf8 r
      | _ => false
    else false

/-- The Frame enum of src/lib/frame.rs.  Text payloads (Rust String) and
byte payloads (Bytes) are both byte lists; the Integer payload is the
numeric value of the u64. -/
inductive Frame where
  | Simple : List Byte → Frame
  | Error : List Byte → Frame
  | Integer : Nat → Frame
  | Bulk : List Byte → Frame
  | Null : Frame
  | Array : List Frame → Frame

/-- The for loop of the star branch of Frame::check: run the given
single frame check n times from the given position, propagating the
first failure. -/
def iterCheck (f : Nat → Res Nat) : Nat → Nat → Res Nat
  | 0, pos => .ok pos
  | n + 1, pos => (f pos).bind fun p2 => iterCheck f n p2

/-- Frame::check of src/lib/frame.rs, with a structural fuel bounding
the nesting depth of the recursive descent.  Every nested invocation
consumes at least one byte first, so a fuel of the buffer length plus
two can never run out; the wrapper Frame.check below fixes that budget.
The u64 to usize conversions via try_into cannot fail on the 64 bit
targets the crate builds for and are the identity here. -/
def checkF : Nat → List Byte → Nat → Res Nat
  | 0, _, _ => .fuelOut
  | fuel + 1, data, pos =>
    (get_u8 data pos).bind fun bp =>
      if bp.1 = 43 then (get_line data bp.2).bind fun lp => .ok lp.2
      else if bp.1 = 45 then (get_line data bp.2).bind fun lp => .ok lp.2
      else if bp.1 = 58 then (get_decimal data bp.2).bind fun np => .ok np.2
      else if bp.1 = 36 then
        (peek_u8 data bp.2).bind fun flag =>
          if flag = 45 then skip data bp.2 4
          else (get_decimal data bp.2).bind fun np => skip data np.2 (np.1 + 2)
      else if bp.1 = 42 then
        (get_decimal data bp.2).bind fun np =>
          iterCheck (fun p => checkF fuel data p) np.1 np.2
      else .otherErr

/-- Frame::check started at a cursor position, with the always
sufficient fuel budget. -/
def Frame.check (data : List Byte) (pos : Nat) : Res Nat :=
  checkF (data.length + 2) data pos

/-- The for loop of the star branch of Frame::parse: parse n child
frames in order, collecting them as the source pushes into its vector. -/
def iterParse (f : Nat → Res (Frame × Nat)) : Nat → Nat → Res (List Frame × Nat)
  | 0, pos => .ok ([], pos)
  | n + 1, pos =>
    (f pos).bind fun fp =>
      (iterParse f n fp.2).bind fun rp => .ok (fp.1 :: rp.1, rp.2)

/-- Frame::parse of src/lib/frame.rs, with the same fuel device as
checkF.  The source is embedded as written, including the branch for a
leading minus building Frame::Simple rather than Frame::Error, the
negative bulk branch that errors exactly on the canonical line of minus
followed by one, and the array branch that ends in the todo macro (a
panic) after parsing its children. -/
def parseF : Nat → List Byte → Nat → Res (Frame × Nat)
  | 0, _, _ => .fuelOut
  | fuel + 1, data, pos =>
    (get_u8 data pos).bind fun bp =>
      if bp.1 = 43 then
        (get_line data bp.2).bind fun lp =>
          if validUtf8 lp.1 then .ok (Frame.Simple lp.1, lp.2) else .otherErr
      else if bp.1 = 45 then
        (get_line data bp.2).bind fun lp =>
          if validUtf8 lp.1 then .ok (Frame.Simple lp.1, lp.2) else .otherErr
      else if bp.1 = 58 then
        (get_decimal data bp.2).bind fun np => .ok (Frame.Integer np.1, np.2)
      else if bp.1 = 36 then
        (peek_u8 data bp.2).bind fun flag =>
          if flag = 45 then
            (get_line data bp.2).bind fun lp =>
              if lp.1 = [45, 49] then .otherErr else .ok (Frame.Null, lp.2)
          else
            (get_decimal data bp.2).bind fun np =>
              if remaining data np.2 < np.1 + 2 then .incomplete
              else
                (skip data np.2 (np.1 + 2)).bind fun p3 =>
                  .ok (Frame.Bulk ((data.drop np.2).take np.1), p3)
      else if bp.1 = 42 then
        (get_decimal data bp.2).bind fun np =>
          (iterParse (fun p => parseF fuel data p) np.1 np.2).bind fun _ =>
            .panic
      else .otherErr

/-- Frame::parse started at a cursor position, with the always
sufficient fuel budget. -/
def Frame.parse (data : List Byte) (pos : Nat) : Res (Frame × Nat) :=
  parseF (data.length + 2) data pos

/-- The byte pair written by the CRLF constant of src/lib/conn.rs. -/
def CRLF : List Byte := [13, 10]

/-- The ASCII decimal digits of a u64 value, as produced by the write
macro formatting the value inside Connection::write_decimal. -/
def decimalDigits (n : Nat) : List Byte := (Nat.toDigits 10 n).map Char.toNat

/-- Connection::write_decimal of src/lib/conn.rs: the digits of the
value followed by CRLF.  The twenty byte scratch buffer always fits a
u64 and the sink writes cannot fail in this pure model, so the function
is total. -/
def write_decimal (val : Nat) : List Byte := decimalDigits val ++ CRLF

/-- Connection::write_value of src/lib/conn.rs: the bytes emitted for a
non array frame; an array element reaches the unreachable macro and
panics, modelled as none. -/
def write_value : Frame → Option (List Byte)
  | .Simple val => some (43 :: val ++ CRLF)
  | .Error val => some (45 :: val ++ CRLF)
  | .Integer val => some (58 :: write_decimal val)
  | .Bulk val => some (36 :: write_decimal val.length ++ val ++ CRLF)
  | .Null => some ([36, 45, 49] ++ CRLF)
  | .Array _ => none

/-- The element loop of Connection::write_frame: concatenate the bytes
of each element written through write_value, propagating a panic. -/
def write_values : List Frame → Option (List Byte)
  | [] => some []
  | f :: rest =>
    match write_value f, write_values rest with
    | some b, some bs => some (b ++ bs)
    | _, _ => none

/-- Connection::write_frame of src/lib/conn.rs: an array frame emits the
star prefix, the decimal element count, then every element through
write_value; any other frame goes through write_value directly.  The
flush emits no bytes of its own. -/
def write_frame : Frame → Option (List Byte)
  | .Array vec => (write_values vec).map fun bs => 42 :: write_decimal vec.length ++ bs
  | f => write_value f

/-- Connection::parse_frame of src/lib/conn.rs: probe the buffer with
Frame::check from position zero; on success rerun Frame::parse from
position zero and yield the frame (the caller advances the buffer by the
checked length); an Incomplete probe yields no frame; any other failure
of either pass propagates as an error of the connection. -/
def parse_frame (buffer : List Byte) : Res (Option Frame) :=
  match Frame.check buffer 0 with
  | .ok _ => (Frame.parse buffer 0).bind fun fp => .ok (some fp.1)
  | .incomplete => .ok none
  | .otherErr => .otherErr
  | .panic => .panic
  | .fuelOut => .fuelOut

/-- Outcome of Connection::read_frame: a decoded frame, a clean no frame
end, the connection reset error raised on a zero length read over a non
empty buffer, a propagated codec error, a panic from the codec, or
blocked when the modelled list of reads is exhausted while the loop
still wants more bytes (the real code would suspend on the socket). -/
inductive RfRes where
  | someFrame : Frame → RfRes
  | noFrame : RfRes
  | connReset : RfRes
  | err : RfRes
  | panic : RfRes
  | blocked : RfRes

/-- Connection::read_frame of src/lib/conn.rs.  The reads argument lists
the byte chunks successive stream reads append to the buffer; an empty
chunk is a zero length read (peer closed).  Each loop turn first tries
parse_frame on the accumulated buffer, then pulls the next chunk. -/
def read_frame : List Byte → List (List Byte) → RfRes
  | buffer, reads =>
    match parse_frame buffer with
    | .ok (some f) => .someFrame f
    | .ok none =>
      match reads with
      | [] => .blocked
      | chunk :: rest =>
        if chunk.length = 0 then
          if buffer.isEmpty then .noFrame else .connReset
        else read_frame (buffer ++ chunk) rest
    | .incomplete => .err
    | .otherErr => .err
    | .panic => .panic
    | .fuelOut => .panic

/-- The ParseError enum of src/lib/parse.rs; the message wrapped by the
Other variant is elided. -/
inductive ParseError where
  | EndOfStream : ParseError
  | Other : ParseError
deriving DecidableEq

/-- The Parse struct of src/lib/parse.rs: the consuming iterator over
the elements of one decoded array frame. -/
structure Parse where
  part : List Frame

/-- Parse::new of src/lib/parse.rs: only an array frame yields a
tokenizer; every other frame is the protocol error. -/
def Parse.new : Frame → Except ParseError Parse
  | Frame.Array array => Except.ok ⟨array⟩
  | _ => Except.error ParseError.Other

/-- Parse::next of src/lib/parse.rs: pop the next element of the
iterator or fail with EndOfStream; the iterator mutation is modelled by
returning the remaining tokenizer state. -/
def Parse.next (p : Parse) : Except ParseError (Frame × Parse) :=
  match p.part with
  | [] => Except.error ParseError.EndOfStream
  | f :: rest => Except.ok (f, ⟨rest⟩)

/-- Driver for the claims about Parse: the outcomes of k successive
calls of Parse.next, threading the tokenizer state (a failed call leaves
the state unchanged, as the source iterator does). -/
def Parse.run : Parse → Nat → List (Except ParseError Frame)
  | _, 0 => []
  | p, k + 1 =>
    match p.next with
    | Except.ok fp => Except.ok fp.1 :: fp.2.run k
    | Except.error e => Except.error e :: p.run k

/-- Discriminator for the array variant, used to state which frames the
tokenizer constructor accepts. -/
def isArrayFrame : Frame → Bool
  | Frame.Array _ => true
  | _ => false

/-- Spec side vocabulary: whether a byte is an ASCII decimal digit. -/
def isDigitByte (b : Byte) : Bool := decide (48 ≤ b ∧ b ≤ 57)

/-- Spec side vocabulary: the number denoted by a sequence of ASCII
digit bytes, accumulated onto an initial value. -/
def digitsValAcc (a : Nat) (l : List Byte) : Nat :=
  l.foldl (fun x b => x * 10 + (b - 48)) a

/-- Spec side vocabulary: the number denoted by a sequence of ASCII
digit bytes. -/
def digitsVal (l : List Byte) : Nat := digitsValAcc 0 l

/-! ### Helper lemmas -/

theorem scan_crlf_no_cr (line rest : List Byte) (h : 13 ∉ line) :
    scan_crlf (line ++ 13 :: 10 :: rest) = LineScan.found line.length := by
  induction line with
  | nil => simp [scan_crlf]
  | cons a l ih =>
    have ha : a ≠ 13 := fun hc => h (by simp [hc])
    have hl : 13 ∉ l := fun hc => h (List.mem_cons_of_mem _ hc)
    simp [scan_crlf, ha, ih hl, LineScan.bump]

theorem get_line_terminated (line rest : List Byte) (h : 13 ∉ line) :
    get_line (line ++ 13 :: 10 :: rest) 0 = Res.ok (line, line.length + 2) := by
  unfold get_line
  rw [List.drop_zero, scan_crlf_no_cr line rest h]
  simp [List.take_left]

theorem digitsValAcc_cons (a b : Nat) (l : List Byte) :
    digitsValAcc a (b :: l) = digitsValAcc (a * 10 + (b - 48)) l := rfl

theorem le_digitsValAcc (l : List Byte) : ∀ a, a ≤ digitsValAcc a l := by
  induction l with
  | nil => intro a; exact Nat.le_refl a
  | cons b l ih =>
    intro a
    rw [digitsValAcc_cons]
    exact le_trans (by omega) (ih (a * 10 + (b - 48)))

theorem frtc_all_digits_none (l : List Byte) (h : l.all isDigitByte = true) :
    from_radix_10_checked l none = (none, l.length) := by
  induction l with
  | nil => rfl
  | cons b l ih =>
    rw [List.all_cons, Bool.and_eq_true] at h
    have hb : 48 ≤ b ∧ b ≤ 57 := by simpa [isDigitByte] using h.1
    simp [from_radix_10_checked, ascii_to_digit, hb, ih h.2]

theorem frtc_all_digits_some (l : List Byte) :
    ∀ a, l.all isDigitByte = true → a < U64_CAP →
      from_radix_10_checked l (some a) =
        (if digitsValAcc a l < U64_CAP then some (digitsValAcc a l) else none,
          l.length) := by
  induction l with
  | nil =>
    intro a _ ha
    simp [from_radix_10_checked, digitsValAcc, ha]
  | cons b l ih =>
    intro a h ha
    rw [List.all_cons, Bool.and_eq_true] at h
    have hb : 48 ≤ b ∧ b ≤ 57 := by simpa [isDigitByte] using h.1
    by_cases hcap : a * 10 + (b - 48) < U64_CAP
    · simp [from_radix_10_checked, ascii_to_digit, hb, hcap, ih _ h.2 hcap,
        digitsValAcc_cons]
    · have hmono := le_digitsValAcc l (a * 10 + (b - 48))
      have hbig : ¬ digitsValAcc (a * 10 + (b - 48)) l < U64_CAP := by omega
      simp [from_radix_10_checked, ascii_to_digit, hb, hcap,
        frtc_all_digits_none l h.2, hbig, digitsValAcc_cons]

theorem frtc_stops_short (l : List Byte) :
    ∀ acc, l.all isDigitByte = false →
      (from_radix_10_checked l acc).2 < l.length := by
  induction l with
  | nil => intro acc h; simp at h
  | cons b l ih =>
    intro acc h
    by_cases hb : 48 ≤ b ∧ b ≤ 57
    · have hl : l.all isDigitByte = false := by
        rw [List.all_cons] at h
        have hbd : isDigitByte b = true := by simp [isDigitByte, hb]
        simpa [hbd] using h
      simp only [from_radix_10_checked, ascii_to_digit, hb, if_true]
      exact Nat.succ_lt_succ (ih _ hl)
    · simp [from_radix_10_checked, ascii_to_digit, hb]

theorem atoi64_characterization (l : List Byte) :
    atoi64 l =
      if l ≠ [] ∧ l.all isDigitByte = true ∧ digitsVal l < U64_CAP
      then some (digitsVal l) else none := by
  by_cases hall : l.all isDigitByte = true
  · cases l with
    | nil => simp [atoi64, from_radix_10_checked]
    | cons b l0 =>
      unfold atoi64
      rw [frtc_all_digits_some (b :: l0) 0 hall (by norm_num [U64_CAP])]
      by_cases hcap : digitsValAcc 0 (b :: l0) < U64_CAP
      · simp [hcap, digitsVal, hall]
      · simp [hcap, digitsVal, hall]
  · have hne : l ≠ [] := by
      intro he; subst he; simp at hall
    have hfalse : l.all isDigitByte = false := by
      simpa using hall
    have hlt := frtc_stops_short l (some 0) hfalse
    unfold atoi64
    rcases hfr : from_radix_10_checked l (some 0) with ⟨o, k⟩
    rw [hfr] at hlt
    simp only at hlt
    cases o with
    | none => simp [hall]
    | some n =>
      have : ¬ (k = l.length ∧ k ≠ 0) := by omega
      simp [this, hall]

/-! ### Claim theorems -/

/-- C1: for every byte window, Frame::check started at cursor position
zero returns Ok if and only if Frame::parse over the same window returns
Ok a frame, with equal byte consumption.  The code violates this: on the
window star zero CRLF (an empty array), check returns Ok having advanced
the cursor to position four, while parse reaches the todo macro of the
array branch and aborts instead of returning Ok. -/
theorem check_parse_disagree_on_empty_array :
    Frame.check [42, 48, 13, 10] 0 = Res.ok 4 ∧
    Frame.parse [42, 48, 13, 10] 0 = Res.panic :=
  ⟨rfl, rfl⟩

/-- C2: encode then decode should be the identity on frames without
nested arrays.  The code violates this already at Frame::Null: the write
path emits the canonical five bytes dollar minus one CRLF, but
Frame::parse of exactly those bytes returns an Other error because the
comparison against the canonical negative length line is inverted. -/
theorem null_roundtrip_broken :
    write_frame Frame.Null = some [36, 45, 49, 13, 10] ∧
    Frame.parse [36, 45, 49, 13, 10] 0 = Res.otherErr :=
  ⟨rfl, rfl⟩

/-- C3: decoding the wire bytes of the two element command GET foo
should return the array of the two bulk frames; the code instead parses
both children and then aborts at the todo macro that stands where the
array branch should return its collected elements. -/
theorem parse_get_command_aborts :
    Frame.parse [42, 50, 13, 10, 36, 51, 13, 10, 71, 69, 84, 13, 10,
      36, 51, 13, 10, 102, 111, 111, 13, 10] 0 = Res.panic :=
  rfl

/-- C4: on inputs starting with dollar minus, parse should return Null
exactly for the canonical bytes dollar minus one CRLF and fail with
Other for every other negative length line.  The code does the precise
opposite: the canonical encoding is rejected with Other and the line
minus two is accepted as Null. -/
theorem parse_negative_bulk_inverted :
    Frame.parse [36, 45, 49, 13, 10] 0 = Res.otherErr ∧
    Frame.parse [36, 45, 50, 13, 10] 0 = Res.ok (Frame.Null, 5) :=
  ⟨rfl, rfl⟩

/-- C5: whenever the stream read inside read_frame returns zero bytes
(the head chunk is empty), read_frame returns the clean no frame result
if the receive buffer is empty at that moment and the connection reset
error if the buffer still holds unconsumed bytes; leftovers are never
silently dropped.  The hypothesis states that the probe of the current
buffer found no complete frame, which is exactly the situation in which
the loop performs a read. -/
theorem read_frame_zero_read (buffer : List Byte) (reads : List (List Byte))
    (h : parse_frame buffer = Res.ok none) :
    read_frame buffer ([] :: reads) =
      if buffer.isEmpty then RfRes.noFrame else RfRes.connReset := by
  rw [read_frame, h]
  simp

theorem read_frame_zero_read_witness :
    read_frame [] [[]] = RfRes.noFrame ∧ read_frame [43] [[]] = RfRes.connReset :=
  ⟨by rw [read_frame_zero_read [] [] rfl]; rfl,
    by rw [read_frame_zero_read [43] [] rfl]; rfl⟩

/-- C6: the scanner primitive skip should advance the cursor by exactly
N bytes when at least N remain and fail with Incomplete when fewer
remain.  The advancing half works, but the Incomplete guard compares the
bitwise complement of the remaining count against N (a typo for the
plain comparison), so it never fires and the failed assertion inside Buf
advance aborts instead: skipping one byte of an empty buffer panics. -/
theorem skip_panics_when_short :
    skip [] 0 1 = Res.panic ∧ skip [97, 98, 99] 0 2 = Res.ok 2 :=
  ⟨rfl, rfl⟩

/-- C7: get_line should either return the slice before the first CRLF
pair or fail with Incomplete when no pair occurs, including when the
final byte of the buffer is a lone carriage return, and never abort.
The code aborts in that final byte case: the loop indexes one byte past
the end of the buffer.  The second conjunct shows the ordinary
successful scan. -/
theorem get_line_trailing_cr_panics :
    get_line [13] 0 = Res.panic ∧ get_line [97, 13, 10, 98] 0 = Res.ok ([97], 3) :=
  ⟨rfl, rfl⟩

/-- C8: over a CRLF terminated line, get_decimal returns the unsigned
64 bit integer denoted by the ASCII digits of the line when the line is
non empty, all digits and the value is representable, and fails with an
Other error otherwise, in particular on digits followed by a non digit
byte and on an empty line. -/
theorem get_decimal_spec (line rest : List Byte) (h : 13 ∉ line) :
    get_decimal (line ++ 13 :: 10 :: rest) 0 =
      if line ≠ [] ∧ line.all isDigitByte = true ∧ digitsVal line < U64_CAP
      then Res.ok (digitsVal line, line.length + 2)
      else Res.otherErr := by
  unfold get_decimal
  rw [get_line_terminated line rest h]
  simp only [Res.bind]
  rw [atoi64_characterization]
  by_cases hc : line ≠ [] ∧ line.all isDigitByte = true ∧ digitsVal line < U64_CAP
  · rw [if_pos hc, if_pos hc]
  · rw [if_neg hc, if_neg hc]

theorem get_decimal_spec_witness :
    (13 ∉ [52, 50]) ∧
    get_decimal ([52, 50] ++ 13 :: 10 :: []) 0 = Res.ok (42, 4) :=
  ⟨by decide, by rw [get_decimal_spec [52, 50] [] (by decide)]; decide⟩

/-- C9: the connection write path emits exactly the bytes dollar four
CRLF pong CRLF for the frame Bulk pong, and exactly the bytes dollar
minus one CRLF for the frame Null. -/
theorem encode_bulk_pong_and_null :
    write_frame (Frame.Bulk [112, 111, 110, 103]) =
      some [36, 52, 13, 10, 112, 111, 110, 103, 13, 10] ∧
    write_frame Frame.Null = some [36, 45, 49, 13, 10] :=
  ⟨rfl, rfl⟩

/-- C10: the tokenizer constructor Parse::new succeeds exactly on array
frames, failing with the Other error on every other frame; and on the
array of elements l, successive calls of next yield the elements of l in
their original order and then fail with EndOfStream. -/
theorem parse_tokenizer_spec :
    (∀ f : Frame, isArrayFrame f = false →
      Parse.new f = Except.error ParseError.Other) ∧
    (∀ l : List Frame, Parse.new (Frame.Array l) = Except.ok ⟨l⟩) ∧
    (∀ l : List Frame,
      Parse.run ⟨l⟩ (l.length + 1) =
        l.map Except.ok ++ [Except.error ParseError.EndOfStream]) := by
  refine ⟨?_, ?_, ?_⟩
  · intro f h
    cases f <;> first | rfl | simp [isArrayFrame] at h
  · intro l
    rfl
  · intro l
    induction l with
    | nil => rfl
    | cons a l ih =>
      show Except.ok a :: Parse.run ⟨l⟩ (l.length + 1) =
        List.map Except.ok (a :: l) ++ [Except.error ParseError.EndOfStream]
      rw [ih]
      rfl

theorem parse_tokenizer_spec_witness :
    Parse.new Frame.Null = Except.error ParseError.Other ∧
    Parse.run ⟨[Frame.Null]⟩ 2 =
      [Except.ok Frame.Null, Except.error ParseError.EndOfStream] :=
  ⟨parse_tokenizer_spec.1 Frame.Null rfl,
    by have h := parse_tokenizer_spec.2.2 [Frame.Null]; simpa using h⟩
